import Mathlib

/-!
# Verification of the epoll WebSocket server core (`src/epoll_server.go`)

The Go methods of `epollServer` are embedded as pure functions that take the
server state and return the new state together with the list of calls made to
the collaborators (the connection, the readiness multiplexer, the routing
engine, the lifecycle callbacks and the logger), in program order.

Collaborators whose code is not part of `epoll_server.go` are modelled from
the specification and marked as such.  Outcomes that the environment decides
(whether a descriptor can be registered, whether a write fails, what
`context()` returns, what `Wait()` returns) are inputs: the record `Env` and
the list of `Wait()` results handed to the event loop.

Callbacks and handlers are application code.  Their invocation is recorded as
an event; their bodies are not part of the server core and are not followed.
-/

namespace websocket

/-- Wire bytes, Go `[]byte`. -/
abbrev Bytes := List UInt8

/-- Modelled from the spec: the `Connection` interface, whose declaration is
not in `epoll_server.go`.  Section 3: a handle identified by a stable unique
identifier `ID()`.  `handle` is the identity of the Go object, so that
two objects reporting the same `ID()` remain distinguishable. -/
structure Connection where
  ID : String
  handle : Nat
deriving DecidableEq

/-- Modelled from the spec: the request context (section 3), carrying at
minimum the target URI, the originating connection and the payload. -/
structure RequestContext where
  uri : String
  conn : Connection
  payload : Bytes
deriving DecidableEq

/-- Modelled from the spec: `Response`, of which the server only uses
`Byte() -> []byte` (section 6). -/
structure Response where
  Byte : Bytes
deriving DecidableEq

/-- Modelled from the spec: the type `Handler`, declared outside
`epoll_server.go`.  Handlers are application functions (section 4.1); the
model keeps their identity only.  `notFound` is the built-in fallback. -/
inductive Handler where
  | notFound : Handler
  | app : Nat → Handler
deriving DecidableEq

/-- Modelled from the spec: `notFoundHandler`, declared outside
`epoll_server.go`; the built-in fallback that `Start` installs (section 4.1). -/
def notFoundHandler : Handler := Handler.notFound

/-- A lifecycle callback `func(conn Connection)`, kept by identity. -/
structure Callback where
  tag : Nat
deriving DecidableEq

/-- The calls the server core makes, recorded in program order. -/
inductive Event where
  /-- `epoller.Add(conn)`, with whether it returned a nil error. -/
  | add : Connection → Bool → Event
  /-- `epoller.Remove(conn)`, with whether it returned a nil error. -/
  | remove : Connection → Bool → Event
  /-- `epoller.Wait()`, with whether it returned a nil error. -/
  | wait : Bool → Event
  /-- `conn.close()`. -/
  | close : Connection → Event
  /-- `conn.write(payload)`, with whether it returned a nil error. -/
  | write : Connection → Bytes → Bool → Event
  /-- `conn.context()`, with whether it returned a nil error. -/
  | context : Connection → Bool → Event
  /-- `srv.connectCallback(conn)`. -/
  | connect : Callback → Connection → Event
  /-- `srv.disconnectCallback(conn)`. -/
  | disconnect : Callback → Connection → Event
  /-- `srv.engine.handle(ctx)`. -/
  | handle : RequestContext → Event
  /-- `srv.engine.NoRoute(handler)`. -/
  | noRoute : Handler → Event
  /-- `log.Printf(...)`. -/
  | log : String → Event
deriving DecidableEq

/-- Outcomes decided by the environment of the server core. -/
structure Env where
  /-- The registration error of the readiness primitive for a descriptor,
  `none` when the descriptor can be registered. -/
  addErr : Connection → Option String
  /-- The error returned by `conn.write`, `none` on success. -/
  writeErr : Connection → Option String
  /-- The result of `conn.context()`. -/
  context : Connection → Except String RequestContext

/-- Modelled from the spec: the struct `Engine`, declared outside
`epoll_server.go`, with the fields that `epoll_server.go` reads and writes
(`routers` in `EpollServer`, `noRoute` in `Start`).  The mutex `rmw` has no
sequential content. -/
structure Engine where
  routers : List (String × Handler)
  noRoute : Option Handler
deriving DecidableEq

/-- Modelled from the spec: `Engine.NoRoute(handler)`, defined outside
`epoll_server.go`.  Section 4.1: sets the fallback handler used when no URI
matches. -/
def Engine.NoRoute (e : Engine) (handler : Handler) : Engine :=
  { e with noRoute := some handler }

/-- Modelled from the spec: the struct `epoll`, declared outside
`epoll_server.go`.  `connections` is the Go map read by `Broadcast`, listed in
the order in which a `range` visits it. -/
structure epoll where
  connections : List Connection
deriving DecidableEq

/-- Modelled from the spec: the registry records connections keyed by their
identifier (section 4.2), so no two entries carry the same `ID()`. -/
def epoll.wf (e : epoll) : Prop :=
  (e.connections.map Connection.ID).Nodup

instance (e : epoll) : Decidable e.wf := by
  unfold epoll.wf; infer_instance

/-- Modelled from the spec: `MkEpoll()`, defined outside `epoll_server.go`;
a fresh registry has no connection.  (Its error case is fatal at start-up.) -/
def MkEpoll : epoll := { connections := [] }

/-- Modelled from the spec: `epoll.Add(conn)`, defined outside
`epoll_server.go`.  Section 4.2: registers the descriptor and records `conn`
in the live set, keyed by its identifier; fails with a registration error if
the descriptor cannot be registered, in which case nothing is recorded. -/
def epoll.Add (env : Env) (e : epoll) (conn : Connection) : Except String epoll :=
  match env.addErr conn with
  | some err => Except.error err
  | none =>
    Except.ok { connections := conn :: e.connections.filter (fun c => c.ID != conn.ID) }

/-- Modelled from the spec: `epoll.Remove(conn)`, defined outside
`epoll_server.go`.  Section 4.2: deregisters the descriptor and deletes it
from the live set; fails (non-fatal) if the connection was not registered. -/
def epoll.Remove (e : epoll) (conn : Connection) : Except String epoll :=
  if e.connections.any (fun c => c.ID == conn.ID) then
    Except.ok { connections := e.connections.filter (fun c => c.ID != conn.ID) }
  else
    Except.error "connection not registered"

/-- The Go struct `epollServer`. -/
structure epollServer where
  engine : Engine
  connectCallback : Option Callback
  disconnectCallback : Option Callback
  epoller : epoll
deriving DecidableEq

/-- `EpollServer()`: empty routing table, no callback, fresh registry. -/
def EpollServer : epollServer :=
  { engine := { routers := [], noRoute := none }
    connectCallback := none
    disconnectCallback := none
    epoller := MkEpoll }

/-- `registerConn`: add to the registry; on error log, close and return; on
success invoke the connect callback when one is set. -/
def registerConn (env : Env) (srv : epollServer) (conn : Connection) :
    epollServer × List Event :=
  match srv.epoller.Add env conn with
  | Except.error _ =>
    (srv, [Event.add conn false, Event.log "Failed to add connection", Event.close conn])
  | Except.ok ep =>
    let srv1 := { srv with epoller := ep }
    match srv1.connectCallback with
    | some cb => (srv1, [Event.add conn true, Event.connect cb conn])
    | none => (srv1, [Event.add conn true])

/-- `HandleConnect`: install the connect callback. -/
def HandleConnect (srv : epollServer) (callback : Option Callback) : epollServer :=
  { srv with connectCallback := callback }

/-- `HandleDisconnect`: install the disconnect callback. -/
def HandleDisconnect (srv : epollServer) (callback : Option Callback) : epollServer :=
  { srv with disconnectCallback := callback }

/-- The inner loop of `Broadcast`: `skip` becomes true at the first element
of `ignores` equal to the identifier, and the loop breaks there. -/
def skipLoop (id : String) : List String → Bool
  | [] => false
  | ignore :: rest => if ignore == id then true else skipLoop id rest

/-- The outer loop of `Broadcast` over the registry entries. -/
def broadcastLoop (env : Env) (response : Response) (ignores : List String) :
    List Connection → List Event
  | [] => []
  | conn :: rest =>
    let skip := skipLoop conn.ID ignores
    let here :=
      if !skip then
        match env.writeErr conn with
        | some err =>
          [Event.write conn response.Byte false,
           Event.log ("write to [" ++ conn.ID ++ "]: " ++ err)]
        | none => [Event.write conn response.Byte true]
      else []
    here ++ broadcastLoop env response ignores rest

/-- `Broadcast(response, ignores...)`. -/
def Broadcast (env : Env) (srv : epollServer) (response : Response)
    (ignores : List String) : epollServer × List Event :=
  (srv, broadcastLoop env response ignores srv.epoller.connections)

/-- `Close(conn)`: remove from the registry (an error is logged only), close
the socket, then invoke the disconnect callback when one is set. -/
def Close (srv : epollServer) (conn : Connection) : epollServer × List Event :=
  let r : epollServer × List Event :=
    match srv.epoller.Remove conn with
    | Except.error err =>
      (srv, [Event.remove conn false, Event.log ("Failed to remove " ++ err)])
    | Except.ok ep => ({ srv with epoller := ep }, [Event.remove conn true])
  let cb : List Event :=
    match r.1.disconnectCallback with
    | some f => [Event.disconnect f conn]
    | none => []
  (r.1, r.2 ++ [Event.close conn] ++ cb)

/-- The inner loop of the event loop of `Start` over one batch of ready
connections. -/
def batchLoop (env : Env) : epollServer → List Connection → epollServer × List Event
  | srv, [] => (srv, [])
  | srv, conn :: rest =>
    match env.context conn with
    | Except.error _ =>
      let r1 := Close srv conn
      let r2 := batchLoop env r1.1 rest
      (r2.1, Event.context conn false :: r1.2 ++ r2.2)
    | Except.ok ctx =>
      let r2 := batchLoop env srv rest
      (r2.1, Event.context conn true :: Event.handle ctx :: r2.2)

/-- One iteration of the body of the `for` loop of `Start`, given what
`Wait()` returned. -/
def loopIteration (env : Env) (srv : epollServer)
    (waited : Except String (List Connection)) : epollServer × List Event :=
  match waited with
  | Except.error err =>
    (srv, [Event.wait false, Event.log ("Failed to epoll wait " ++ err)])
  | Except.ok connections =>
    let r := batchLoop env srv connections
    (r.1, Event.wait true :: r.2)

/-- The `for` loop of `Start`, run for as many iterations as there are
`Wait()` results in `waits`.  The Go loop has no exit; every finite run of it
is `eventLoop` on the list of the results `Wait()` gave so far. -/
def eventLoop (env : Env) :
    epollServer → List (Except String (List Connection)) → epollServer × List Event
  | srv, [] => (srv, [])
  | srv, waited :: more =>
    let r1 := loopIteration env srv waited
    let r2 := eventLoop env r1.1 more
    (r2.1, r1.2 ++ r2.2)

/-- `Start()`: install the default fallback route when none is set, then run
the event loop (here for the iterations given by `waits`). -/
def Start (env : Env) (srv : epollServer)
    (waits : List (Except String (List Connection))) : epollServer × List Event :=
  let r0 : epollServer × List Event :=
    match srv.engine.noRoute with
    | none =>
      ({ srv with engine := srv.engine.NoRoute notFoundHandler },
        [Event.noRoute notFoundHandler])
    | some _ => (srv, [])
  let r1 := eventLoop env r0.1 waits
  (r1.1, r0.2 ++ r1.2)

/-! ## Reading a trace -/

/-- The connections on which `close()` was called, in order. -/
def closeCalls (t : List Event) : List Connection :=
  t.filterMap fun e => match e with
    | Event.close c => some c
    | _ => none

/-- The `epoller.Add` calls, in order. -/
def addCalls (t : List Event) : List (Connection × Bool) :=
  t.filterMap fun e => match e with
    | Event.add c ok => some (c, ok)
    | _ => none

/-- The `epoller.Remove` calls, in order. -/
def removeCalls (t : List Event) : List (Connection × Bool) :=
  t.filterMap fun e => match e with
    | Event.remove c ok => some (c, ok)
    | _ => none

/-- The connect callback invocations, in order. -/
def connectCalls (t : List Event) : List (Callback × Connection) :=
  t.filterMap fun e => match e with
    | Event.connect f c => some (f, c)
    | _ => none

/-- The disconnect callback invocations, in order. -/
def disconnectCalls (t : List Event) : List (Callback × Connection) :=
  t.filterMap fun e => match e with
    | Event.disconnect f c => some (f, c)
    | _ => none

/-- The `write` calls with their payload, in order. -/
def writeCalls (t : List Event) : List (Connection × Bytes) :=
  t.filterMap fun e => match e with
    | Event.write c p _ => some (c, p)
    | _ => none

/-- The connections written to, in order. -/
def writeTargets (t : List Event) : List Connection :=
  (writeCalls t).map Prod.fst

/-- The connections on which `context()` was called, in order. -/
def contextCalls (t : List Event) : List Connection :=
  t.filterMap fun e => match e with
    | Event.context c _ => some c
    | _ => none

/-- The contexts handed to `engine.handle`, in order. -/
def handleCalls (t : List Event) : List RequestContext :=
  t.filterMap fun e => match e with
    | Event.handle ctx => some ctx
    | _ => none

/-- The handlers passed to `engine.NoRoute`, in order. -/
def noRouteCalls (t : List Event) : List Handler :=
  t.filterMap fun e => match e with
    | Event.noRoute h => some h
    | _ => none

/-- The outcomes of the `Wait()` calls, in order. -/
def waitCalls (t : List Event) : List Bool :=
  t.filterMap fun e => match e with
    | Event.wait ok => some ok
    | _ => none

/-- The trace without its log lines. -/
def withoutLog (t : List Event) : List Event :=
  t.filter fun e => match e with
    | Event.log _ => false
    | _ => true

/-- Whether `context()` fails on a connection. -/
def contextFails (env : Env) (c : Connection) : Bool :=
  !(env.context c).toBool

/-- The environment in which every write succeeds, all else equal. -/
def Env.allWritesSucceed (env : Env) : Env :=
  { env with writeErr := fun _ => none }

/-- Two calls of `Close` on the same connection, one right after the other. -/
def closeTwice (srv : epollServer) (conn : Connection) : epollServer × List Event :=
  let r1 := Close srv conn
  let r2 := Close r1.1 conn
  (r2.1, r1.2 ++ r2.2)

/-! ## Concrete inputs -/

/-- Connection `A`. -/
def connA : Connection := { ID := "A", handle := 1 }
/-- Connection `B`. -/
def connB : Connection := { ID := "B", handle := 2 }
/-- Connection `C`. -/
def connC : Connection := { ID := "C", handle := 3 }

/-- An environment in which every descriptor registers, every write succeeds
except the one to `B`, and `context()` fails on `B` only. -/
def envB : Env :=
  { addErr := fun _ => none
    writeErr := fun c => if c = connB then some "broken pipe" else none
    context := fun c =>
      if c = connB then Except.error "EOF"
      else Except.ok { uri := "/ping", conn := c, payload := [] } }

/-- A server with the three connections live and both callbacks set. -/
def srvABC : epollServer :=
  { engine := { routers := [], noRoute := none }
    connectCallback := some ⟨1⟩
    disconnectCallback := some ⟨2⟩
    epoller := { connections := [connA, connB, connC] } }

/-- A response with a three byte payload. -/
def respR : Response := { Byte := [1, 2, 3] }

/-! ## Admission and close -/

/-- The state after `Close`: only the registry changes, and it loses every
entry keyed by the identifier of the connection. -/
theorem Close_fst (srv : epollServer) (conn : Connection) :
    (Close srv conn).1 =
      { srv with epoller :=
          { connections := srv.epoller.connections.filter (fun c => c.ID != conn.ID) } } := by
  unfold Close epoll.Remove
  by_cases h : srv.epoller.connections.any (fun c => c.ID == conn.ID) = true
  · simp [h]
  · simp only [h]
    simp only [Bool.false_eq_true, if_false]
    have hself :
        srv.epoller.connections.filter (fun c => c.ID != conn.ID) = srv.epoller.connections := by
      rw [List.filter_eq_self]
      intro c hc
      simp only [List.any_eq_true, not_exists, not_and] at h
      have := h c hc
      simpa using this
    rw [hself]

/-- The trace of `Close`, written out. -/
theorem Close_snd (srv : epollServer) (conn : Connection) :
    (Close srv conn).2 =
      Event.remove conn (srv.epoller.Remove conn).toBool ::
        ((match srv.epoller.Remove conn with
          | Except.error err => [Event.log ("Failed to remove " ++ err)]
          | Except.ok _ => []) ++
        Event.close conn ::
          srv.disconnectCallback.toList.map (fun f => Event.disconnect f conn)) := by
  unfold Close
  cases hrm : srv.epoller.Remove conn with
  | error err => cases hcb : srv.disconnectCallback <;> simp [Except.toBool, hcb]
  | ok ep => cases hcb : srv.disconnectCallback <;> simp [Except.toBool, hcb]

/-- `Remove` fails on a registry from which the identifier was just removed. -/
theorem Remove_after_Close (srv : epollServer) (conn : Connection) :
    ((Close srv conn).1.epoller.Remove conn).toBool = false := by
  rw [Close_fst]
  unfold epoll.Remove
  have hany :
      (srv.epoller.connections.filter (fun c => c.ID != conn.ID)).any
        (fun c => c.ID == conn.ID) = false := by
    rw [List.any_eq_false]
    intro c hc
    have := (List.mem_filter.1 hc).2
    simpa using this
  simp [hany, Except.toBool]

/-- Dropping the entries under one identifier keeps identifiers distinct. -/
theorem wf_filter (l : List Connection) (p : Connection → Bool)
    (h : (l.map Connection.ID).Nodup) : ((l.filter p).map Connection.ID).Nodup :=
  h.sublist ((List.filter_sublist l).map Connection.ID)

/-- The fresh server has a well-formed registry. -/
theorem EpollServer_wf : EpollServer.epoller.wf := by
  simp [EpollServer, MkEpoll, epoll.wf]

/-- A successful `Add` keeps the registry well formed. -/
theorem Add_wf (env : Env) (e e2 : epoll) (conn : Connection) (h : e.wf)
    (hadd : e.Add env conn = Except.ok e2) : e2.wf := by
  unfold epoll.Add at hadd
  cases herr : env.addErr conn with
  | some err => simp [herr] at hadd
  | none =>
    simp only [herr, Except.ok.injEq] at hadd
    subst hadd
    unfold epoll.wf
    simp only [List.map_cons, List.nodup_cons]
    refine ⟨?_, wf_filter _ _ h⟩
    intro hmem
    obtain ⟨c, hc, hid⟩ := List.mem_map.1 hmem
    have := (List.mem_filter.1 hc).2
    simp [hid] at this

/-- The registry stays well formed through `registerConn`. -/
theorem registerConn_wf (env : Env) (srv : epollServer) (conn : Connection)
    (h : srv.epoller.wf) : (registerConn env srv conn).1.epoller.wf := by
  unfold registerConn
  cases hadd : srv.epoller.Add env conn with
  | error err => exact h
  | ok ep =>
    have := Add_wf env srv.epoller ep conn h hadd
    cases hcb : srv.connectCallback <;> simpa [hcb] using this

/-- The registry stays well formed through `Close`. -/
theorem Close_wf (srv : epollServer) (conn : Connection) (h : srv.epoller.wf) :
    (Close srv conn).1.epoller.wf := by
  rw [Close_fst]
  exact wf_filter _ _ h

/-- C1 (admission invariant of registerConn): the connect callback is invoked
exactly when `epoller.Add(conn)` succeeded and a callback is installed, then
once and with `conn`; `conn.close()` is called once when `Add` fails and not
at all when it succeeds; `Add` itself is called once. -/
theorem registerConn_admission (env : Env) (srv : epollServer) (conn : Connection) :
    connectCalls (registerConn env srv conn).2 =
        (if (srv.epoller.Add env conn).toBool then
          srv.connectCallback.toList.map (fun cb => (cb, conn)) else []) ∧
      ((∃ cb, (cb, conn) ∈ connectCalls (registerConn env srv conn).2) ↔
        ((srv.epoller.Add env conn).toBool = true ∧ srv.connectCallback.isSome = true)) ∧
      (connectCalls (registerConn env srv conn).2).length ≤ 1 ∧
      closeCalls (registerConn env srv conn).2 =
        (if (srv.epoller.Add env conn).toBool then [] else [conn]) ∧
      addCalls (registerConn env srv conn).2 =
        [(conn, (srv.epoller.Add env conn).toBool)] := by
  unfold registerConn
  cases hadd : srv.epoller.Add env conn with
  | error err => simp [connectCalls, closeCalls, addCalls, Except.toBool]
  | ok ep =>
    cases hcb : srv.connectCallback with
    | none => simp [connectCalls, closeCalls, addCalls, Except.toBool, hcb]
    | some cb => simp [connectCalls, closeCalls, addCalls, Except.toBool, hcb]

/-- C7 (close sequence): apart from the log line, the calls of `Close(conn)`
are `epoller.Remove(conn)`, then `conn.close()`, then the disconnect callback
with `conn` when one is installed and nothing when none is; each happens once
at most. -/
theorem Close_sequence (srv : epollServer) (conn : Connection) :
    withoutLog (Close srv conn).2 =
        [Event.remove conn (srv.epoller.Remove conn).toBool, Event.close conn] ++
          srv.disconnectCallback.toList.map (fun f => Event.disconnect f conn) ∧
      removeCalls (Close srv conn).2 = [(conn, (srv.epoller.Remove conn).toBool)] ∧
      closeCalls (Close srv conn).2 = [conn] ∧
      disconnectCalls (Close srv conn).2 =
        srv.disconnectCallback.toList.map (fun f => (f, conn)) ∧
      (disconnectCalls (Close srv conn).2).length ≤ 1 := by
  rw [Close_snd]
  cases hrm : srv.epoller.Remove conn with
  | error err =>
    cases hcb : srv.disconnectCallback <;>
      simp [withoutLog, removeCalls, closeCalls, disconnectCalls, Except.toBool]
  | ok ep =>
    cases hcb : srv.disconnectCallback <;>
      simp [withoutLog, removeCalls, closeCalls, disconnectCalls, Except.toBool]

/-- C2, as stated, fails: with a disconnect callback installed and `A` live,
two calls of `Close(A)` in a row invoke the callback twice, the second time in
a call whose `Remove` returned an error. -/
theorem closeTwice_fires_twice :
    srvABC.disconnectCallback.isSome = true ∧
      ¬ ((disconnectCalls (closeTwice srvABC connA).2).length ≤ 1) ∧
      removeCalls (Close (Close srvABC connA).1 connA).2 = [(connA, false)] ∧
      disconnectCalls (Close (Close srvABC connA).1 connA).2 = [(⟨2⟩, connA)] := by
  decide

/-- C2, amended: with a disconnect callback `f` installed, every call of
`Close(conn)` invokes `f` once, whatever `Remove` returned; two calls in a row
invoke it twice in total, and the second of them is a call whose `Remove`
returned an error. -/
theorem closeTwice_disconnect (srv : epollServer) (conn : Connection) (f : Callback)
    (hf : srv.disconnectCallback = some f) :
    disconnectCalls (Close srv conn).2 = [(f, conn)] ∧
      disconnectCalls (closeTwice srv conn).2 = [(f, conn), (f, conn)] ∧
      removeCalls (Close (Close srv conn).1 conn).2 = [(conn, false)] ∧
      disconnectCalls (Close (Close srv conn).1 conn).2 = [(f, conn)] := by
  have h1 : (Close srv conn).1.disconnectCallback = some f := by
    rw [Close_fst]; exact hf
  have hrm := Remove_after_Close srv conn
  have e1 : disconnectCalls (Close srv conn).2 = [(f, conn)] := by
    rw [Close_snd, hf]
    cases srv.epoller.Remove conn <;> simp [disconnectCalls]
  have e2 : disconnectCalls (Close (Close srv conn).1 conn).2 = [(f, conn)] := by
    rw [Close_snd, h1]
    cases (Close srv conn).1.epoller.Remove conn <;> simp [disconnectCalls]
  have e3 : removeCalls (Close (Close srv conn).1 conn).2 = [(conn, false)] := by
    rw [Close_snd, hrm, h1]
    cases (Close srv conn).1.epoller.Remove conn <;> simp [removeCalls]
  refine ⟨e1, ?_, e3, e2⟩
  have hsplit : disconnectCalls (closeTwice srv conn).2 =
      disconnectCalls (Close srv conn).2 ++
        disconnectCalls (Close (Close srv conn).1 conn).2 := by
    simp [closeTwice, disconnectCalls, List.filterMap_append]
  rw [hsplit, e1, e2]
  rfl

/-- Witness for the amended C2: `A` closed twice on the server with `A`, `B`, `C`. -/
theorem closeTwice_disconnect_witness :
    srvABC.disconnectCallback = some ⟨2⟩ ∧
      disconnectCalls (closeTwice srvABC connA).2 = [(⟨2⟩, connA), (⟨2⟩, connA)] :=
  ⟨rfl, (closeTwice_disconnect srvABC connA ⟨2⟩ rfl).2.1⟩

/-! ## Broadcast -/

/-- The inner loop of `Broadcast` decides membership in the ignore list. -/
theorem skipLoop_eq (id : String) (ignores : List String) :
    skipLoop id ignores = decide (id ∈ ignores) := by
  induction ignores with
  | nil => simp [skipLoop]
  | cons a rest ih =>
    simp only [skipLoop, ih]
    by_cases h : a = id
    · simp [h]
    · have h2 : ¬ id = a := fun e => h e.symm
      simp [h, h2]

/-- The writes of the outer loop of `Broadcast`: the entries whose identifier
is not ignored, in registry order, each with the bytes of the response. -/
theorem writeCalls_broadcastLoop (env : Env) (response : Response)
    (ignores : List String) (conns : List Connection) :
    writeCalls (broadcastLoop env response ignores conns) =
      (conns.filter (fun c => !decide (c.ID ∈ ignores))).map
        (fun c => (c, response.Byte)) := by
  induction conns with
  | nil => simp [broadcastLoop, writeCalls]
  | cons c rest ih =>
    have happ : ∀ a b : List Event, writeCalls (a ++ b) = writeCalls a ++ writeCalls b := by
      intro a b; simp [writeCalls, List.filterMap_append]
    simp only [broadcastLoop, happ, ih, skipLoop_eq]
    by_cases hc : c.ID ∈ ignores
    · simp [hc, writeCalls]
    · cases hw : env.writeErr c <;> simp [hc, writeCalls, hw]

/-- The connections written to by `Broadcast`. -/
theorem writeTargets_Broadcast (env : Env) (srv : epollServer) (response : Response)
    (ignores : List String) :
    writeTargets (Broadcast env srv response ignores).2 =
      srv.epoller.connections.filter (fun c => !decide (c.ID ∈ ignores)) := by
  simp [writeTargets, Broadcast, writeCalls_broadcastLoop, List.map_map, Function.comp_def]

/-- The outer loop of `Broadcast` only writes and logs. -/
theorem broadcastLoop_only_writes (env : Env) (response : Response)
    (ignores : List String) (conns : List Connection) :
    removeCalls (broadcastLoop env response ignores conns) = [] ∧
      closeCalls (broadcastLoop env response ignores conns) = [] ∧
      disconnectCalls (broadcastLoop env response ignores conns) = [] ∧
      connectCalls (broadcastLoop env response ignores conns) = [] ∧
      addCalls (broadcastLoop env response ignores conns) = [] := by
  induction conns with
  | nil => simp [broadcastLoop, removeCalls, closeCalls, disconnectCalls, connectCalls, addCalls]
  | cons c rest ih =>
    obtain ⟨h1, h2, h3, h4, h5⟩ := ih
    simp only [removeCalls, closeCalls, disconnectCalls, connectCalls, addCalls] at h1 h2 h3 h4 h5
    simp only [broadcastLoop, removeCalls, closeCalls, disconnectCalls, connectCalls, addCalls,
      List.filterMap_append, h1, h2, h3, h4, h5]
    by_cases hs : skipLoop c.ID ignores = true
    · simp [hs]
    · cases hw : env.writeErr c <;> simp [hs, hw]

/-- A list of identifiers without repetition, all of them identifiers of
entries of a registry without repeated identifier, selects as many entries as
it has elements. -/
theorem length_filter_ignored (conns : List Connection) (ignores : List String)
    (hwf : (conns.map Connection.ID).Nodup) (hnd : ignores.Nodup)
    (hsub : ∀ id ∈ ignores, ∃ c ∈ conns, c.ID = id) :
    (conns.filter (fun c => decide (c.ID ∈ ignores))).length = ignores.length := by
  have hmap : (conns.filter (fun c => decide (c.ID ∈ ignores))).map Connection.ID =
      (conns.map Connection.ID).filter (fun id => decide (id ∈ ignores)) := by
    rw [List.filter_map]; rfl
  have hperm : ((conns.map Connection.ID).filter (fun id => decide (id ∈ ignores))).Perm
      ignores := by
    rw [List.perm_ext_iff_of_nodup (hwf.filter _) hnd]
    intro id
    simp only [List.mem_filter, List.mem_map, decide_eq_true_eq]
    constructor
    · intro h; exact h.2
    · intro h
      obtain ⟨c, hc, hid⟩ := hsub id h
      exact ⟨⟨c, hc, hid⟩, h⟩
  have := hperm.length_eq
  rw [← hmap, List.length_map] at this
  exact this

/-- C3 (broadcast membership): the live connections being a set (no entry
listed twice), `Broadcast` calls `write` once on a live connection whose
`ID()` is not in `ignores` and never on one whose `ID()` is in `ignores`, and
every payload written is `response.Byte()`. -/
theorem Broadcast_membership (env : Env) (srv : epollServer) (response : Response)
    (ignores : List String) (conn : Connection)
    (hnd : srv.epoller.connections.Nodup) (hlive : conn ∈ srv.epoller.connections) :
    (writeTargets (Broadcast env srv response ignores).2).count conn =
        (if conn.ID ∈ ignores then 0 else 1) ∧
      ∀ p ∈ writeCalls (Broadcast env srv response ignores).2, p.2 = response.Byte := by
  constructor
  · rw [writeTargets_Broadcast]
    by_cases hc : conn.ID ∈ ignores
    · rw [if_pos hc]
      apply List.count_eq_zero_of_not_mem
      intro hmem
      have := (List.mem_filter.1 hmem).2
      simp [hc] at this
    · rw [if_neg hc]
      apply List.count_eq_one_of_mem (hnd.filter _)
      exact List.mem_filter.2 ⟨hlive, by simp [hc]⟩
  · intro p hp
    simp only [Broadcast, writeCalls_broadcastLoop, List.mem_map] at hp
    obtain ⟨c, _, rfl⟩ := hp
    rfl

/-- Witness for C3: `A`, `B`, `C` live, `B` ignored, no write to `B`. -/
theorem Broadcast_membership_witness :
    srvABC.epoller.connections.Nodup ∧ connB ∈ srvABC.epoller.connections ∧
      (writeTargets (Broadcast envB srvABC respR ["B"]).2).count connB =
        (if connB.ID ∈ ["B"] then 0 else 1) :=
  ⟨by decide, by decide,
    (Broadcast_membership envB srvABC respR ["B"] connB (by decide) (by decide)).1⟩

/-- C4, as stated, fails: with three live connections and the ignore set
`Z` of size one, `Broadcast` writes to three connections, not to two. -/
theorem ignoring_absent_id_writes_all :
    srvABC.epoller.wf ∧ ["Z"].Nodup ∧
      ["Z"].length ≤ srvABC.epoller.connections.length ∧
      (writeTargets (Broadcast envB srvABC respR ["Z"]).2).length = 3 ∧
      (writeTargets (Broadcast envB srvABC respR ["Z"]).2).length ≠
        srvABC.epoller.connections.length - ["Z"].length := by
  decide

/-- C4, amended: on a registry keyed by identifier, when the ignore list has
no repetition and every identifier in it is the `ID()` of a live connection,
`Broadcast` writes to exactly `N - k` connections, each of them once. -/
theorem Broadcast_count (env : Env) (srv : epollServer) (response : Response)
    (ignores : List String)
    (hwf : srv.epoller.wf) (hnd : ignores.Nodup)
    (hsub : ∀ id ∈ ignores, ∃ c ∈ srv.epoller.connections, c.ID = id) :
    (writeTargets (Broadcast env srv response ignores).2).length =
        srv.epoller.connections.length - ignores.length ∧
      (writeTargets (Broadcast env srv response ignores).2).Nodup ∧
      ignores.length ≤ srv.epoller.connections.length := by
  rw [writeTargets_Broadcast]
  have hlen := length_filter_ignored srv.epoller.connections ignores hwf hnd hsub
  have hsplit := List.length_eq_length_filter_add
    (l := srv.epoller.connections) (fun c => decide (c.ID ∈ ignores))
  rw [hlen] at hsplit
  refine ⟨?_, (List.Nodup.of_map _ hwf).filter _, ?_⟩ <;> omega

/-- Witness for the amended C4: `A`, `B`, `C` live, `B` ignored, two writes. -/
theorem Broadcast_count_witness :
    srvABC.epoller.wf ∧ ["B"].Nodup ∧
      (∀ id ∈ ["B"], ∃ c ∈ srvABC.epoller.connections, c.ID = id) ∧
      (writeTargets (Broadcast envB srvABC respR ["B"]).2).length =
        srvABC.epoller.connections.length - ["B"].length :=
  ⟨by decide, by decide, by decide,
    (Broadcast_count envB srvABC respR ["B"] (by decide) (by decide) (by decide)).1⟩

/-- C5 (broadcast resilience): whatever the write outcomes, `Broadcast` writes
to the same connections, in the same order, as when every write succeeds, and
every live connection whose `ID()` is not ignored is written to. -/
theorem Broadcast_resilience (env : Env) (srv : epollServer) (response : Response)
    (ignores : List String) :
    writeCalls (Broadcast env srv response ignores).2 =
        writeCalls (Broadcast env.allWritesSucceed srv response ignores).2 ∧
      writeTargets (Broadcast env srv response ignores).2 =
        writeTargets (Broadcast env.allWritesSucceed srv response ignores).2 ∧
      ∀ conn ∈ srv.epoller.connections, conn.ID ∉ ignores →
        conn ∈ writeTargets (Broadcast env srv response ignores).2 := by
  refine ⟨?_, ?_, ?_⟩
  · simp [Broadcast, writeCalls_broadcastLoop]
  · rw [writeTargets_Broadcast, writeTargets_Broadcast]
  · intro conn hlive hc
    rw [writeTargets_Broadcast]
    exact List.mem_filter.2 ⟨hlive, by simp [hc]⟩

/-- Witness for C5: the write to `B` fails, and `C`, which comes after `B`,
is written to all the same. -/
theorem Broadcast_resilience_witness :
    envB.writeErr connB = some "broken pipe" ∧
      connC ∈ writeTargets (Broadcast envB srvABC respR []).2 :=
  ⟨by decide,
    (Broadcast_resilience envB srvABC respR []).2.2 connC (by decide) (by decide)⟩

/-- C10 (broadcast frame): `Broadcast` returns the server state it was given
(registry, routing engine and both callbacks) and calls neither
`epoller.Remove`, `conn.close()` nor the disconnect callback, whatever the
write outcomes. -/
theorem Broadcast_frame (env : Env) (srv : epollServer) (response : Response)
    (ignores : List String) :
    (Broadcast env srv response ignores).1 = srv ∧
      removeCalls (Broadcast env srv response ignores).2 = [] ∧
      closeCalls (Broadcast env srv response ignores).2 = [] ∧
      disconnectCalls (Broadcast env srv response ignores).2 = [] := by
  obtain ⟨h1, h2, h3, _, _⟩ :=
    broadcastLoop_only_writes env response ignores srv.epoller.connections
  exact ⟨rfl, h1, h2, h3⟩

/-! ## The event loop -/

/-- The state after one batch: only the registry changes, and it loses the
entries keyed by the identifier of a connection whose `context()` failed. -/
theorem batchLoop_fst (env : Env) (srv : epollServer) (batch : List Connection) :
    (batchLoop env srv batch).1 =
      { srv with epoller :=
          { connections := srv.epoller.connections.filter
              (fun c => (batch.filter (contextFails env)).all (fun d => c.ID != d.ID)) } } := by
  induction batch generalizing srv with
  | nil => simp [batchLoop]
  | cons conn rest ih =>
    unfold batchLoop
    cases hctx : env.context conn with
    | error err =>
      have hf : contextFails env conn = true := by simp [contextFails, hctx, Except.toBool]
      simp only [ih, Close_fst, List.filter_cons, hf, if_true, List.all_cons, List.filter_filter]
      congr 2
      apply List.filter_congr
      intro c _
      exact Bool.and_comm _ _
    | ok ctx =>
      have hf : contextFails env conn = false := by simp [contextFails, hctx, Except.toBool]
      simp [ih, List.filter_cons, hf]

/-- The registry stays well formed through one batch. -/
theorem batchLoop_wf (env : Env) (srv : epollServer) (batch : List Connection)
    (h : srv.epoller.wf) : (batchLoop env srv batch).1.epoller.wf := by
  rw [batchLoop_fst]
  exact wf_filter _ _ h

/-- The calls made while one batch is processed, by kind. -/
theorem batchLoop_calls (env : Env) (srv : epollServer) (batch : List Connection) :
    contextCalls (batchLoop env srv batch).2 = batch ∧
      handleCalls (batchLoop env srv batch).2 =
        batch.filterMap (fun c => (env.context c).toOption) ∧
      closeCalls (batchLoop env srv batch).2 = batch.filter (contextFails env) ∧
      (removeCalls (batchLoop env srv batch).2).map Prod.fst =
        batch.filter (contextFails env) ∧
      disconnectCalls (batchLoop env srv batch).2 =
        srv.disconnectCallback.toList.flatMap
          (fun f => (batch.filter (contextFails env)).map (fun c => (f, c))) ∧
      noRouteCalls (batchLoop env srv batch).2 = [] ∧
      waitCalls (batchLoop env srv batch).2 = [] := by
  induction batch generalizing srv with
  | nil =>
    cases hcb : srv.disconnectCallback <;>
      simp [batchLoop, contextCalls, handleCalls, closeCalls, removeCalls, disconnectCalls,
        noRouteCalls, waitCalls]
  | cons conn rest ih =>
    obtain ⟨h1, h2, h3, h4, h5, h6, h7⟩ := ih (Close srv conn).1
    obtain ⟨k1, k2, k3, k4, k5, k6, k7⟩ := ih srv
    have hcbs : (Close srv conn).1.disconnectCallback = srv.disconnectCallback := by
      rw [Close_fst]
    rw [hcbs] at h5
    simp only [contextCalls, handleCalls, closeCalls, removeCalls, disconnectCalls,
      noRouteCalls, waitCalls] at h1 h2 h3 h4 h5 h6 h7 k1 k2 k3 k4 k5 k6 k7
    unfold batchLoop
    cases hctx : env.context conn with
    | error err =>
      have hf : contextFails env conn = true := by simp [contextFails, hctx, Except.toBool]
      simp only [Close_snd]
      cases hrm : srv.epoller.Remove conn <;> cases hcb : srv.disconnectCallback <;>
        simp [contextCalls, handleCalls, closeCalls, removeCalls, disconnectCalls,
          noRouteCalls, waitCalls, List.filterMap_append, h1, h2, h3, h4, h5, h6, h7, hf,
          hctx, hcb, Except.toOption, List.filter_cons, Except.toBool]
    | ok ctx =>
      have hf : contextFails env conn = false := by simp [contextFails, hctx, Except.toBool]
      cases hcb : srv.disconnectCallback <;>
        simp [contextCalls, handleCalls, closeCalls, removeCalls, disconnectCalls,
          noRouteCalls, waitCalls, k1, k2, k3, k4, k5, k6, k7, hf,
          hctx, hcb, Except.toOption, List.filter_cons]

/-- One loop iteration leaves the routing engine and both callbacks as they
were, and calls `engine.NoRoute` never and `Wait()` once. -/
theorem loopIteration_frame (env : Env) (srv : epollServer)
    (waited : Except String (List Connection)) :
    (loopIteration env srv waited).1.engine = srv.engine ∧
      (loopIteration env srv waited).1.connectCallback = srv.connectCallback ∧
      (loopIteration env srv waited).1.disconnectCallback = srv.disconnectCallback ∧
      noRouteCalls (loopIteration env srv waited).2 = [] ∧
      waitCalls (loopIteration env srv waited).2 = [waited.toBool] := by
  cases waited with
  | error err => simp [loopIteration, noRouteCalls, waitCalls, Except.toBool]
  | ok batch =>
    obtain ⟨_, _, _, _, _, h6, h7⟩ := batchLoop_calls env srv batch
    simp only [noRouteCalls, waitCalls] at h6 h7
    simp [loopIteration, batchLoop_fst, noRouteCalls, waitCalls, Except.toBool, h6, h7]

/-- The event loop leaves the routing engine as it was, calls `engine.NoRoute`
never, and calls `Wait()` once per iteration. -/
theorem eventLoop_frame (env : Env) (srv : epollServer)
    (waits : List (Except String (List Connection))) :
    (eventLoop env srv waits).1.engine = srv.engine ∧
      noRouteCalls (eventLoop env srv waits).2 = [] ∧
      waitCalls (eventLoop env srv waits).2 = waits.map Except.toBool := by
  induction waits generalizing srv with
  | nil => simp [eventLoop, noRouteCalls, waitCalls]
  | cons w more ih =>
    obtain ⟨h1, _, _, h4, h5⟩ := loopIteration_frame env srv w
    obtain ⟨k1, k2, k3⟩ := ih (loopIteration env srv w).1
    simp only [noRouteCalls, waitCalls] at h4 h5 k2 k3
    simp [eventLoop, noRouteCalls, waitCalls, List.filterMap_append, h1, h4, h5, k1, k2, k3]

/-- C6 (event-loop batch isolation): in one iteration on a batch without
duplicates, `context()` is called on every connection of the batch in order;
a connection whose `context()` fails goes through `Close` once (one `Remove`,
one `close()`, one disconnect callback when a callback is set, no entry left
in the registry under its identifier) and contributes no `handle` call; a
connection whose `context()` succeeds has its context handed to
`engine.handle` and is not closed. -/
theorem loopIteration_batch (env : Env) (srv : epollServer) (batch : List Connection)
    (hnd : batch.Nodup) :
    contextCalls (loopIteration env srv (Except.ok batch)).2 = batch ∧
      handleCalls (loopIteration env srv (Except.ok batch)).2 =
        batch.filterMap (fun c => (env.context c).toOption) ∧
      (handleCalls (loopIteration env srv (Except.ok batch)).2).length =
        (batch.filter (fun c => !contextFails env c)).length ∧
      (∀ conn ∈ batch, contextFails env conn = true →
        (closeCalls (loopIteration env srv (Except.ok batch)).2).count conn = 1 ∧
        ((removeCalls (loopIteration env srv (Except.ok batch)).2).map Prod.fst).count conn
          = 1 ∧
        ((disconnectCalls (loopIteration env srv (Except.ok batch)).2).map Prod.snd).count
          conn = (if srv.disconnectCallback.isSome then 1 else 0) ∧
        (∀ c ∈ (loopIteration env srv (Except.ok batch)).1.epoller.connections,
          c.ID ≠ conn.ID)) ∧
      (∀ conn ∈ batch, ∀ ctx, env.context conn = Except.ok ctx →
        ctx ∈ handleCalls (loopIteration env srv (Except.ok batch)).2 ∧
        conn ∉ closeCalls (loopIteration env srv (Except.ok batch)).2 ∧
        conn ∉ (removeCalls (loopIteration env srv (Except.ok batch)).2).map Prod.fst ∧
        conn ∉ (disconnectCalls (loopIteration env srv (Except.ok batch)).2).map Prod.snd) ∧
      (∀ p ∈ disconnectCalls (loopIteration env srv (Except.ok batch)).2,
        some p.1 = srv.disconnectCallback) := by
  obtain ⟨h1, h2, h3, h4, h5, _, _⟩ := batchLoop_calls env srv batch
  have e1 : contextCalls (loopIteration env srv (Except.ok batch)).2 = batch := by
    simpa [loopIteration, contextCalls] using h1
  have e2 : handleCalls (loopIteration env srv (Except.ok batch)).2 =
      batch.filterMap (fun c => (env.context c).toOption) := by
    simpa [loopIteration, handleCalls] using h2
  have e3 : closeCalls (loopIteration env srv (Except.ok batch)).2 =
      batch.filter (contextFails env) := by
    simpa [loopIteration, closeCalls] using h3
  have e4 : (removeCalls (loopIteration env srv (Except.ok batch)).2).map Prod.fst =
      batch.filter (contextFails env) := by
    simpa [loopIteration, removeCalls] using h4
  have e5 : disconnectCalls (loopIteration env srv (Except.ok batch)).2 =
      srv.disconnectCallback.toList.flatMap
        (fun f => (batch.filter (contextFails env)).map (fun c => (f, c))) := by
    simpa [loopIteration, disconnectCalls] using h5
  have e6 : (disconnectCalls (loopIteration env srv (Except.ok batch)).2).map Prod.snd =
      (if srv.disconnectCallback.isSome then batch.filter (contextFails env) else []) := by
    rw [e5]
    cases srv.disconnectCallback <;> simp [List.map_map, Function.comp_def]
  have e7 : (loopIteration env srv (Except.ok batch)).1 = (batchLoop env srv batch).1 := rfl
  have hlen : ∀ l : List Connection,
      (l.filterMap (fun c => (env.context c).toOption)).length =
        (l.filter (fun c => !contextFails env c)).length := by
    intro l
    induction l with
    | nil => rfl
    | cons c rest ih =>
      cases hctx : env.context c with
      | error err =>
        have ho : (env.context c).toOption = none := by rw [hctx]; rfl
        have hf : (!contextFails env c) = false := by
          simp [contextFails, hctx, Except.toBool]
        rw [List.filterMap_cons, List.filter_cons, hf]
        simp only [ho]
        exact ih
      | ok ctx =>
        have ho : (env.context c).toOption = some ctx := by rw [hctx]; rfl
        have hf : (!contextFails env c) = true := by
          simp [contextFails, hctx, Except.toBool]
        rw [List.filterMap_cons, List.filter_cons, hf]
        simp only [ho, if_true, List.length_cons]
        rw [ih]
  refine ⟨e1, e2, ?_, ?_, ?_, ?_⟩
  · rw [e2]; exact hlen batch
  · intro conn hmem hfail
    have hin : conn ∈ batch.filter (contextFails env) := List.mem_filter.2 ⟨hmem, hfail⟩
    have hcount : (batch.filter (contextFails env)).count conn = 1 :=
      List.count_eq_one_of_mem (hnd.filter _) hin
    refine ⟨by rw [e3]; exact hcount, by rw [e4]; exact hcount, ?_, ?_⟩
    · rw [e6]
      cases srv.disconnectCallback <;> simp [hcount]
    · intro c hc
      rw [e7, batchLoop_fst] at hc
      have hall := (List.mem_filter.1 hc).2
      rw [List.all_eq_true] at hall
      have := hall conn hin
      simpa using this
  · intro conn hmem ctx hctx
    have hok : contextFails env conn = false := by simp [contextFails, hctx, Except.toBool]
    have hnot : conn ∉ batch.filter (contextFails env) := by
      intro h
      have := (List.mem_filter.1 h).2
      rw [hok] at this
      exact Bool.false_ne_true this
    refine ⟨?_, by rw [e3]; exact hnot, by rw [e4]; exact hnot, ?_⟩
    · rw [e2, List.mem_filterMap]
      exact ⟨conn, hmem, by simp [hctx, Except.toOption]⟩
    · rw [e6]
      cases srv.disconnectCallback
      · simp
      · simpa using hnot
  · intro p hp
    rw [e5] at hp
    cases hcb : srv.disconnectCallback with
    | none => simp [hcb] at hp
    | some f =>
      simp only [hcb, Option.toList, List.flatMap_cons, List.flatMap_nil, List.append_nil,
        List.mem_map] at hp
      obtain ⟨c, _, rfl⟩ := hp
      rfl

/-- Witness for C6: the batch `A`, `B`, `C`, where `context()` fails on `B`;
`context()` is still called on `C`, and `B` is closed once. -/
theorem loopIteration_batch_witness :
    [connA, connB, connC].Nodup ∧ contextFails envB connB = true ∧
      contextCalls (loopIteration envB srvABC (Except.ok [connA, connB, connC])).2 =
        [connA, connB, connC] ∧
      (closeCalls (loopIteration envB srvABC (Except.ok [connA, connB, connC])).2).count
        connB = 1 :=
  ⟨by decide, by decide,
    (loopIteration_batch envB srvABC [connA, connB, connC] (by decide)).1,
    ((loopIteration_batch envB srvABC [connA, connB, connC] (by decide)).2.2.2.1
      connB (by decide) (by decide)).1⟩

/-- C8 (Start fallback): after `Start()`, for any number of loop iterations,
the engine has a fallback handler: the one set before when there was one, in
which case `engine.NoRoute` is not called and the engine is unchanged, and
otherwise `notFoundHandler`, installed by one call of `engine.NoRoute`. -/
theorem Start_fallback (env : Env) (srv : epollServer)
    (waits : List (Except String (List Connection))) :
    (Start env srv waits).1.engine.noRoute =
        some (srv.engine.noRoute.getD notFoundHandler) ∧
      (Start env srv waits).1.engine.noRoute.isSome = true ∧
      (Start env srv waits).1.engine.routers = srv.engine.routers ∧
      noRouteCalls (Start env srv waits).2 =
        (if srv.engine.noRoute.isSome then [] else [notFoundHandler]) ∧
      (Start env srv waits).1.engine =
        (if srv.engine.noRoute.isSome then srv.engine
          else srv.engine.NoRoute notFoundHandler) := by
  have happ : ∀ a b : List Event, noRouteCalls (a ++ b) = noRouteCalls a ++ noRouteCalls b := by
    intro a b; simp [noRouteCalls, List.filterMap_append]
  cases hnr : srv.engine.noRoute with
  | none =>
    obtain ⟨k1, k2, _⟩ :=
      eventLoop_frame env { srv with engine := srv.engine.NoRoute notFoundHandler } waits
    have hs : (Start env srv waits).1 =
        (eventLoop env { srv with engine := srv.engine.NoRoute notFoundHandler } waits).1 := by
      simp [Start, hnr]
    have ht : (Start env srv waits).2 = [Event.noRoute notFoundHandler] ++
        (eventLoop env { srv with engine := srv.engine.NoRoute notFoundHandler } waits).2 := by
      simp [Start, hnr]
    rw [hs, ht, happ, k1, k2]
    simp [Engine.NoRoute, noRouteCalls]
  | some h =>
    obtain ⟨k1, k2, _⟩ := eventLoop_frame env srv waits
    have hs : (Start env srv waits).1 = (eventLoop env srv waits).1 := by
      simp [Start, hnr]
    have ht : (Start env srv waits).2 = (eventLoop env srv waits).2 := by
      simp [Start, hnr]
    rw [hs, ht, k1, k2]
    simp [hnr]

/-- C9 (Wait error is transient): an iteration in which `Wait()` returns an
error returns the server state unchanged and calls only `Wait()` and the
logger; the loop then goes on with the remaining iterations from that same
state, so `Wait()` is called again. -/
theorem loopIteration_wait_error (env : Env) (srv : epollServer) (err : String)
    (more : List (Except String (List Connection))) :
    (loopIteration env srv (Except.error err)).1 = srv ∧
      withoutLog (loopIteration env srv (Except.error err)).2 = [Event.wait false] ∧
      contextCalls (loopIteration env srv (Except.error err)).2 = [] ∧
      closeCalls (loopIteration env srv (Except.error err)).2 = [] ∧
      removeCalls (loopIteration env srv (Except.error err)).2 = [] ∧
      disconnectCalls (loopIteration env srv (Except.error err)).2 = [] ∧
      handleCalls (loopIteration env srv (Except.error err)).2 = [] ∧
      eventLoop env srv (Except.error err :: more) =
        ((eventLoop env srv more).1,
          (loopIteration env srv (Except.error err)).2 ++ (eventLoop env srv more).2) ∧
      waitCalls (eventLoop env srv (Except.error err :: more)).2 =
        false :: more.map Except.toBool := by
  obtain ⟨_, _, k3⟩ := eventLoop_frame env srv (Except.error err :: more)
  refine ⟨rfl, ?_, ?_, ?_, ?_, ?_, ?_, rfl, ?_⟩
  · simp [loopIteration, withoutLog]
  · simp [loopIteration, contextCalls]
  · simp [loopIteration, closeCalls]
  · simp [loopIteration, removeCalls]
  · simp [loopIteration, disconnectCalls]
  · simp [loopIteration, handleCalls]
  · rw [k3]; rfl

end websocket
